import Mathlib

/-!
A verification development for the detection-and-reaction trading core
(TypeScript sources under `src/`): the configuration loader `env.ts`, the
validation utilities `validation.util.ts`, the Polymarket client factory
`clob-client.factory.ts`, and — modelled from the specification — the
Signal Merger and the Decision Engine.

Modelling conventions:
* JavaScript strings are lists of Unicode code points (`Str := List ℕ`);
  `strLit` converts a Lean string literal to this form.
* JavaScript numbers are `JsNum := Option ℚ`, where `none` stands for `NaN`
  and `some q` for the (exactly representable) numeric value `q`.  The
  environment supplies each numeric variable already passed through the
  host `Number(·)` conversion, which is a platform builtin.
* Exceptions are `Except`: a thrown `ValidationError` or `Error` becomes an
  `Except.error` value.
-/

/-- JavaScript strings, modelled as lists of Unicode code points. -/
abbrev Str : Type := List ℕ

/-- Convert a Lean string literal to the code-point model. -/
def strLit (s : String) : Str := s.data.map Char.toNat

/-- Decimal rendering of a natural number, as a model string
(for interpolated lengths in error messages). -/
def natStr (n : ℕ) : Str := strLit (Nat.repr n)

/-- JavaScript numbers: `none` is `NaN`, `some q` a real numeric value. -/
abbrev JsNum : Type := Option ℚ

/-- The JavaScript `NaN` value. -/
def jsNan : JsNum := none

/-- `isNaN(x)` on a JavaScript number. -/
def jsIsNaN (x : JsNum) : Bool := x.isNone

/-- `x < c` on JavaScript numbers: any comparison with `NaN` is false. -/
def jsLtB (x : JsNum) (c : ℚ) : Bool :=
  match x with
  | none => false
  | some a => decide (a < c)

/-- `x > c` on JavaScript numbers: any comparison with `NaN` is false. -/
def jsGtB (x : JsNum) (c : ℚ) : Bool :=
  match x with
  | none => false
  | some a => decide (c < a)

/-- The character class of the regexes `[0-9a-fA-F]` used throughout
`validation.util.ts`, on code points. -/
def isHexDigit (c : ℕ) : Bool :=
  (48 ≤ c && c ≤ 57) || (97 ≤ c && c ≤ 102) || (65 ≤ c && c ≤ 70)

/-- ASCII whitespace recognised by `String.prototype.trim()`.  (The full
JavaScript set also contains some Unicode space characters; every string in
this development only uses the ASCII part.) -/
def isJsWs (c : ℕ) : Bool :=
  c == 32 || c == 9 || c == 10 || c == 13 || c == 11 || c == 12

/-- `String.prototype.trim()`: strip leading and trailing whitespace. -/
def jsTrim (s : Str) : Str :=
  ((s.dropWhile isJsWs).reverse.dropWhile isJsWs).reverse

/-- `String.prototype.startsWith(pre)`; first argument is the pattern. -/
def listStartsWith : Str → Str → Bool
  | [], _ => true
  | _ :: _, [] => false
  | p :: ps, c :: cs => p == c && listStartsWith ps cs

/-- `String.prototype.toLowerCase()` on one ASCII code point (the
characters this code base lower-cases are all ASCII). -/
def jsToLower (c : ℕ) : ℕ :=
  if 65 ≤ c ∧ c ≤ 90 then c + 32 else c

deriving instance DecidableEq for Except

/-- The `ValidationError` class of `validation.util.ts`: a message and the
offending configuration field. -/
structure ValidationError where
  message : Str
  field : Str
deriving DecidableEq, Repr

/-- `isValidEthereumAddress` from `validation.util.ts`: a falsy or
non-string input is invalid; otherwise the trimmed input must match
`/^0x[a-fA-F0-9]{40}$/i` (case-insensitive, so `0X` is also accepted). -/
def isValidEthereumAddress (address : Str) : Bool :=
  if address.isEmpty then false
  else
    match jsTrim address with
    | c0 :: c1 :: rest =>
        c0 == 48 && (c1 == 120 || c1 == 88) &&
          rest.length == 40 && rest.all isHexDigit
    | _ => false

/-- `isValidPrivateKey` from `validation.util.ts`: trim, strip an optional
`0x` prefix, and require exactly 64 hex characters. -/
def isValidPrivateKey (key : Str) : Bool :=
  if key.isEmpty then false
  else
    let trimmed := jsTrim key
    let cleanKey :=
      if listStartsWith (strLit "0x") trimmed then trimmed.drop 2 else trimmed
    cleanKey.length == 64 && cleanKey.all isHexDigit

/-- `normalizePrivateKey` from `validation.util.ts`: reject empty input,
Sui-format keys, long non-hex non-`0x` strings (Solana-style keys) and
anything failing `isValidPrivateKey`; otherwise return the key with a
`0x` prefix.  (The source interpolates a prefix and the length of the
input into the last message; modelled with `List.take` and `natStr`.) -/
def normalizePrivateKey (key : Str) : Except ValidationError Str :=
  if key.isEmpty then
    .error ⟨strLit "Private key must be a non-empty string", strLit "PRIVATE_KEY"⟩
  else
    let trimmed := jsTrim key
    if listStartsWith (strLit "suiprivkey") trimmed then
      .error ⟨strLit "Detected Sui private key format. This bot requires Polygon (Ethereum-compatible) private keys.\nPlease export your Polygon wallet private key (hex format, 64 characters).",
              strLit "PRIVATE_KEY"⟩
    else if trimmed.length > 64 && !listStartsWith (strLit "0x") trimmed &&
        !(!trimmed.isEmpty && trimmed.all isHexDigit) then
      .error ⟨strLit "Detected invalid private key format. This bot requires Polygon (Ethereum-compatible) private keys.\nPlease export your Polygon wallet private key (hex format, 64 characters).",
              strLit "PRIVATE_KEY"⟩
    else if !isValidPrivateKey trimmed then
      .error ⟨strLit "Invalid private key format. Expected hex format (64 characters, optionally prefixed with 0x).\nGot: " ++
                trimmed.take 20 ++ strLit "... (length: " ++ natStr trimmed.length ++ strLit ")",
              strLit "PRIVATE_KEY"⟩
    else
      let cleanKey :=
        if listStartsWith (strLit "0x") trimmed then trimmed.drop 2 else trimmed
      .ok (strLit "0x" ++ cleanKey)

/-- `normalizeAddress` from `validation.util.ts`: reject empty input and
invalid addresses, otherwise return the trimmed, lower-cased address. -/
def normalizeAddress (address : Str) : Except ValidationError Str :=
  if address.isEmpty then
    .error ⟨strLit "Address must be a non-empty string", strLit "ADDRESS"⟩
  else
    let trimmed := jsTrim address
    if !isValidEthereumAddress trimmed then
      .error ⟨strLit "Invalid Ethereum/Polygon address format. Expected format: 0x followed by 40 hex characters.\nGot: " ++
                trimmed.take 20 ++ strLit "...",
              strLit "ADDRESS"⟩
    else
      .ok (trimmed.map jsToLower)

/-- `isValidRpcUrl` from `validation.util.ts`.  The source delegates to the
platform WHATWG `URL` parser and checks `protocol` for `http:`/`https:`;
that builtin is modelled as: the URL parses with an http(s) protocol
exactly when the string starts with `http://` or `https://` and something
follows the scheme separator. -/
def isValidRpcUrl (url : Str) : Bool :=
  if url.isEmpty then false
  else
    (listStartsWith (strLit "http://") url && url.length > 7) ||
    (listStartsWith (strLit "https://") url && url.length > 8)

/-- The `forEach` loop of `validateAddresses`: normalize each entry,
collecting successes and per-index error messages. -/
def collectAddresses : List Str → ℕ → (List Str × List Str)
  | [], _ => ([], [])
  | addr :: rest, index =>
    let r := collectAddresses rest (index + 1)
    match normalizeAddress addr with
    | .ok n => (n :: r.1, r.2)
    | .error e =>
        (r.1,
          (strLit "Address[" ++ natStr index ++ strLit "]: " ++ e.message) :: r.2)

/-- `validateAddresses` from `validation.util.ts`: an empty list is
rejected; every entry is normalized, errors are collected, and any error
makes the whole call throw; otherwise the normalized list is returned. -/
def validateAddresses (addresses : List Str) : Except ValidationError (List Str) :=
  if addresses.isEmpty then
    .error ⟨strLit "At least one target address is required", strLit "TARGET_ADDRESSES"⟩
  else
    let (normalized, errors) := collectAddresses addresses 0
    if !errors.isEmpty then
      .error ⟨strLit "Invalid addresses found:\n" ++ (strLit "\n").intercalate errors,
              strLit "TARGET_ADDRESSES"⟩
    else
      .ok normalized

/-! ## `config/env.ts` -/

/-- The process environment as `loadEnv` consumes it.  String-valued
variables are `Option Str` (`none` = unset).  Numeric variables are stored
as the value of the host `Number(·)` conversion applied to the raw string
(`none` in the outer `Option` = variable unset; `jsNan` = the string did
not parse as a number).  `TARGET_ADDRESSES` is stored as the result of the
`parseList` helper (JSON-array or comma-separated splitting of the raw
string, a parsing boundary not itself under verification here). -/
structure ProcessEnv where
  TARGET_ADDRESSES : List Str
  PUBLIC_KEY : Option Str
  PRIVATE_KEY : Option Str
  MONGO_URI : Option Str
  RPC_URL : Option Str
  FETCH_INTERVAL : Option JsNum
  TRADE_MULTIPLIER : Option JsNum
  RETRY_LIMIT : Option JsNum
  TRADE_AGGREGATION_ENABLED : Option Str
  TRADE_AGGREGATION_WINDOW_SECONDS : Option JsNum
  USDC_CONTRACT_ADDRESS : Option Str
  POLYMARKET_API_KEY : Option Str
  POLYMARKET_API_SECRET : Option Str
  POLYMARKET_API_PASSPHRASE : Option Str
  MIN_TRADE_SIZE_USD : Option JsNum
  FRONTRUN_SIZE_MULTIPLIER : Option JsNum
  GAS_PRICE_MULTIPLIER : Option JsNum
deriving DecidableEq

/-- The `RuntimeEnv` type of `env.ts`.  Every TypeScript `number` field is
a `JsNum`, since an unvalidated `Number(·)` conversion can produce `NaN`. -/
structure RuntimeEnv where
  targetAddresses : List Str
  proxyWallet : Str
  privateKey : Str
  mongoUri : Option Str
  rpcUrl : Str
  fetchIntervalSeconds : JsNum
  tradeMultiplier : JsNum
  retryLimit : JsNum
  aggregationEnabled : Bool
  aggregationWindowSeconds : JsNum
  usdcContractAddress : Str
  polymarketApiKey : Option Str
  polymarketApiSecret : Option Str
  polymarketApiPassphrase : Option Str
  minTradeSizeUsd : JsNum
  frontrunSizeMultiplier : JsNum
  gasPriceMultiplier : JsNum
deriving DecidableEq

/-- The `required` helper inside `loadEnv`: a missing or empty (falsy)
variable throws a `ValidationError` naming the variable. -/
def required (name : Str) (v : Option Str) : Except ValidationError Str :=
  match v with
  | none =>
      .error ⟨strLit "Missing required environment variable: " ++ name ++
                strLit "\nPlease set the variable in your .env file.", name⟩
  | some s =>
      if s.isEmpty then
        .error ⟨strLit "Missing required environment variable: " ++ name ++
                  strLit "\nPlease set the variable in your .env file.", name⟩
      else .ok s

/-- `Number(process.env.FETCH_INTERVAL ?? 1)`. -/
def fetchIntervalVal (p : ProcessEnv) : JsNum := p.FETCH_INTERVAL.getD (some 1)

/-- The rejection condition `isNaN(fetchIntervalSeconds) || fetchIntervalSeconds < 0.1`. -/
def fetchIntervalBad (p : ProcessEnv) : Bool :=
  jsIsNaN (fetchIntervalVal p) || jsLtB (fetchIntervalVal p) (1 / 10)

/-- `Number(process.env.FRONTRUN_SIZE_MULTIPLIER ?? 0.5)`. -/
def frontrunVal (p : ProcessEnv) : JsNum := p.FRONTRUN_SIZE_MULTIPLIER.getD (some (1 / 2))

/-- The rejection condition
`isNaN(frontrunSizeMultiplier) || frontrunSizeMultiplier < 0 || frontrunSizeMultiplier > 1`. -/
def frontrunBad (p : ProcessEnv) : Bool :=
  jsIsNaN (frontrunVal p) || jsLtB (frontrunVal p) 0 || jsGtB (frontrunVal p) 1

/-- `Number(process.env.GAS_PRICE_MULTIPLIER ?? 1.2)`. -/
def gasVal (p : ProcessEnv) : JsNum := p.GAS_PRICE_MULTIPLIER.getD (some (6 / 5))

/-- The rejection condition `isNaN(gasPriceMultiplier) || gasPriceMultiplier < 1.0`. -/
def gasBad (p : ProcessEnv) : Bool :=
  jsIsNaN (gasVal p) || jsLtB (gasVal p) 1

/-- The hard-coded default USDC contract address in `env.ts`. -/
def defaultUsdc : Str := strLit "0x2791Bca1f2de4661ED88A30C99A7a9449Aa84174"

/-- The `RuntimeEnv` literal built at the end of `loadEnv`, given the
outputs of the validation stages.  Unvalidated numeric fields are read
straight from the environment with their source defaults; the `||` default
for the USDC address treats an empty string as falsy. -/
def mkRuntimeEnv (p : ProcessEnv) (targetAddresses : List Str)
    (proxyWallet privateKey rpcUrl : Str) : RuntimeEnv :=
  { targetAddresses := targetAddresses
    proxyWallet := proxyWallet
    privateKey := privateKey
    mongoUri := p.MONGO_URI
    rpcUrl := rpcUrl
    fetchIntervalSeconds := fetchIntervalVal p
    tradeMultiplier := p.TRADE_MULTIPLIER.getD (some 1)
    retryLimit := p.RETRY_LIMIT.getD (some 3)
    aggregationEnabled := (p.TRADE_AGGREGATION_ENABLED.getD (strLit "false")) == strLit "true"
    aggregationWindowSeconds := p.TRADE_AGGREGATION_WINDOW_SECONDS.getD (some 300)
    usdcContractAddress :=
      match p.USDC_CONTRACT_ADDRESS with
      | none => defaultUsdc
      | some s => if s.isEmpty then defaultUsdc else s
    polymarketApiKey := p.POLYMARKET_API_KEY
    polymarketApiSecret := p.POLYMARKET_API_SECRET
    polymarketApiPassphrase := p.POLYMARKET_API_PASSPHRASE
    minTradeSizeUsd := p.MIN_TRADE_SIZE_USD.getD (some 100)
    frontrunSizeMultiplier := frontrunVal p
    gasPriceMultiplier := gasVal p }

/-- `loadEnv` from `env.ts`.  The stages run in source order: target
addresses, wallet address, private key, RPC URL, then the three validated
numeric variables.  A thrown `ValidationError` is caught at the bottom of
the source function and turned into `process.exit(1)`; that fatal exit is
modelled as the `Except.error` result. -/
def loadEnv (p : ProcessEnv) : Except ValidationError RuntimeEnv :=
  match validateAddresses p.TARGET_ADDRESSES with
  | .error e => .error e
  | .ok targetAddresses =>
  match required (strLit "PUBLIC_KEY") p.PUBLIC_KEY with
  | .error e => .error e
  | .ok rawPublicKey =>
  match normalizeAddress rawPublicKey with
  | .error e => .error e
  | .ok proxyWallet =>
  match required (strLit "PRIVATE_KEY") p.PRIVATE_KEY with
  | .error e => .error e
  | .ok rawPrivateKey =>
  match normalizePrivateKey rawPrivateKey with
  | .error e => .error e
  | .ok privateKey =>
  match required (strLit "RPC_URL") p.RPC_URL with
  | .error e => .error e
  | .ok rawRpcUrl =>
  let rpcUrl := jsTrim rawRpcUrl
  if !isValidRpcUrl rpcUrl then
    .error ⟨strLit "Invalid RPC_URL format. Expected HTTP or HTTPS URL.", strLit "RPC_URL"⟩
  else if fetchIntervalBad p then
    .error ⟨strLit "Invalid FETCH_INTERVAL. Must be a positive number (seconds).",
            strLit "FETCH_INTERVAL"⟩
  else if frontrunBad p then
    .error ⟨strLit "Invalid FRONTRUN_SIZE_MULTIPLIER. Must be between 0.0 and 1.0.",
            strLit "FRONTRUN_SIZE_MULTIPLIER"⟩
  else if gasBad p then
    .error ⟨strLit "Invalid GAS_PRICE_MULTIPLIER. Must be >= 1.0.",
            strLit "GAS_PRICE_MULTIPLIER"⟩
  else
    .ok (mkRuntimeEnv p targetAddresses proxyWallet privateKey rpcUrl)

/-- All of `loadEnv`'s validation stages before the numeric checks
succeed: target addresses, wallet address, private key and RPC URL. -/
def preNumericOk (p : ProcessEnv) : Prop :=
  (∃ l, validateAddresses p.TARGET_ADDRESSES = .ok l) ∧
  (∃ s w, required (strLit "PUBLIC_KEY") p.PUBLIC_KEY = .ok s ∧
    normalizeAddress s = .ok w) ∧
  (∃ s k, required (strLit "PRIVATE_KEY") p.PRIVATE_KEY = .ok s ∧
    normalizePrivateKey s = .ok k) ∧
  (∃ s, required (strLit "RPC_URL") p.RPC_URL = .ok s ∧
    isValidRpcUrl (jsTrim s) = true)

/-! ## `infrastructure/clob-client.factory.ts` -/

/-- Input record of `createPolymarketClient`. -/
structure CreateClientInput where
  rpcUrl : Str
  privateKey : Str
  apiKey : Option Str
  apiSecret : Option Str
  apiPassphrase : Option Str
deriving DecidableEq

/-- What `createPolymarketClient` can throw: a propagated
`ValidationError`, or a plain `Error` with a message. -/
inductive ClientError where
  | validation (e : ValidationError)
  | plain (msg : Str)
deriving DecidableEq

/-- The value returned by `createPolymarketClient`: the CLOB client
(reduced to the data the factory chooses: host, chain, credentials)
together with the attached wallet address. -/
structure PolymarketClient where
  host : Str
  walletAddress : Str
  creds : Option (Str × Str × Str)
deriving DecidableEq

/-- The external capabilities `createPolymarketClient` calls into:
`new JsonRpcProvider(url)` + `provider.getNetwork()` (may reject with a
message), and `new Wallet(key, provider)` (returns the wallet's address or
throws with a message). -/
structure ClientDeps where
  connectNetwork : Str → Except Str Unit
  makeWallet : Str → Except Str Str

/-- `createPolymarketClient` from `clob-client.factory.ts`, with the
effects linearised: the result, paired with whether the RPC connection was
attempted.  Inner `try/catch` blocks rethrow plain `Error`s; the outer
`catch` rethrows a `ValidationError` unchanged and wraps anything else in
`Failed to create Polymarket client: ...`. -/
def createPolymarketClient (deps : ClientDeps) (input : CreateClientInput) :
    Except ClientError PolymarketClient × Bool :=
  match normalizePrivateKey input.privateKey with
  | .error e => (.error (.validation e), false)
  | .ok normalizedPrivateKey =>
    match deps.connectNetwork input.rpcUrl with
    | .error msg =>
        (.error (.plain (strLit "Failed to create Polymarket client: " ++
          (strLit "Failed to connect to RPC endpoint: " ++ input.rpcUrl ++
            strLit "\nError: " ++ msg ++
            strLit "\nPlease verify your RPC_URL is correct and accessible."))), true)
    | .ok _ =>
      match deps.makeWallet normalizedPrivateKey with
      | .error msg =>
          (.error (.plain (strLit "Failed to create Polymarket client: " ++
            (strLit "Failed to create wallet from private key.\nError: " ++ msg ++
              strLit "\nPlease verify your PRIVATE_KEY is a valid Polygon (Ethereum-compatible) private key."))), true)
      | .ok walletAddress =>
        if walletAddress.isEmpty ||
            !(match walletAddress with
              | c0 :: c1 :: rest =>
                  c0 == 48 && (c1 == 120 || c1 == 88) &&
                    rest.length == 40 && rest.all isHexDigit
              | _ => false) then
          (.error (.plain (strLit "Failed to create Polymarket client: " ++
            (strLit "Invalid wallet address generated: " ++ walletAddress))), true)
        else
          let creds : Option (Str × Str × Str) :=
            match input.apiKey, input.apiSecret, input.apiPassphrase with
            | some k, some s, some ph =>
                if k.isEmpty || s.isEmpty || ph.isEmpty then none else some (k, s, ph)
            | _, _, _ => none
          (.ok ⟨strLit "https://clob.polymarket.com", walletAddress, creds⟩, true)

/-! ## The Signal Merger and the Decision Engine

The Merger and the Decision Engine live in the service layer of the
repository, which is not part of the sources under verification; the
definitions below are modelled from the specification (§3, §4.3, §4.5). -/

/-- Signal provenance (`sourceType` of a TradeSignal). -/
inductive SourceType where
  | live
  | polled
deriving DecidableEq

/-- Trade direction. -/
inductive Side where
  | buy
  | sell
deriving DecidableEq

/-- Confirmation state of a TradeSignal. -/
inductive ConfState where
  | pending
  | confirmed
  | unknown
deriving DecidableEq

/-- Modelled from the spec: the `TradeSignal` data model of §3 — a
detected, not-yet-acted-upon trade event with a stable identity `id`. -/
structure TradeSignal where
  id : Str
  sourceType : SourceType
  account : Str
  marketId : Str
  outcomeId : Str
  side : Side
  sizeUsd : ℚ
  price : ℚ
  detectedAt : ℕ
  confirmationState : ConfState
deriving DecidableEq

/-- Modelled from the spec: §4.3's rule that a duplicate updates
`confirmationState` on the original "if the duplicate carries newer
information (e.g., polled-confirmed overriding live-pending)". -/
def confUpgrade (old dup : ConfState) : ConfState :=
  match old, dup with
  | .pending, .confirmed => .confirmed
  | _, _ => old

/-- Modelled from the spec: the Merger's identity cache (§4.3), holding
the signals already seen, keyed by `id`. -/
structure MergerState where
  cache : List TradeSignal
deriving DecidableEq

/-- Does the identity cache already hold a signal with id `i`? -/
def hasId (cache : List TradeSignal) (i : Str) : Bool :=
  cache.any fun c => decide (c.id = i)

/-- Modelled from the spec: one Merger step (§4.3).  An unseen id is
recorded and forwarded; a seen id is dropped, updating the cached
original's confirmation state. -/
def mergeStep (st : MergerState) (s : TradeSignal) :
    MergerState × Option TradeSignal :=
  if hasId st.cache s.id then
    (⟨st.cache.map fun c =>
        if c.id = s.id then
          { c with confirmationState := confUpgrade c.confirmationState s.confirmationState }
        else c⟩,
     none)
  else
    (⟨s :: st.cache⟩, some s)

/-- Run the Merger over an ordered stream of incoming signals from a given
cache state, returning the forwarded (downstream) signals in order. -/
def runMergerFrom (st : MergerState) : List TradeSignal → List TradeSignal
  | [] => []
  | s :: rest =>
    match mergeStep st s with
    | (st', some f) => f :: runMergerFrom st' rest
    | (st', none) => runMergerFrom st' rest

/-- The Merger applied to the full union stream of both sources, starting
from an empty identity cache. -/
def mergerForward (sigs : List TradeSignal) : List TradeSignal :=
  runMergerFrom ⟨[]⟩ sigs

/-- Modelled from the spec: the `AggregatedSignal` data model of §3. -/
structure AggregatedSignal where
  account : Str
  marketId : Str
  side : Side
  netSizeUsd : ℚ
  windowStart : ℕ
  windowEnd : ℕ
  memberIds : List Str
deriving DecidableEq

/-- The configuration values the Decision Engine consumes (§6). -/
structure DecisionConfig where
  minTradeSizeUsd : ℚ
  frontrunSizeMultiplier : ℚ
  gasPriceMultiplier : ℚ
deriving DecidableEq

/-- Modelled from the spec: the `ExecutionRequest` data model of §3. -/
structure ExecutionRequest where
  keyAccount : Str
  keyMarket : Str
  side : Side
  requestedSizeUsd : ℚ
  gasPriceHint : ℚ
  originSignalIds : List Str
deriving DecidableEq

/-- Outcome of one Decision Engine evaluation (§4.5): an emitted request
or one of the skip dispositions. -/
inductive Decision where
  | emit (req : ExecutionRequest)
  | skipBelowThreshold
  | skipDuplicate
  | skipInsufficientBalance
deriving DecidableEq

/-- Modelled from the spec: the Decision Engine contract of §4.5.  In
order: the minimum-size filter, the duplicate-in-flight filter, the
balance-sufficiency filter on the computed response size, then
`requestedSizeUsd = netSizeUsd × frontrunSizeMultiplier` and
`gasPriceHint = currentGasPrice × gasPriceMultiplier`; a response of size
0 (multiplier 0) is treated as below-threshold rather than submitted. -/
def decideSignal (cfg : DecisionConfig) (inFlight : List (Str × Str × Side))
    (hasSufficientBalance : Str → Side → ℚ → Bool) (currentGasPrice : ℚ)
    (sig : AggregatedSignal) : Decision :=
  if sig.netSizeUsd < cfg.minTradeSizeUsd then
    .skipBelowThreshold
  else if (sig.account, sig.marketId, sig.side) ∈ inFlight then
    .skipDuplicate
  else
    let requestedSizeUsd := sig.netSizeUsd * cfg.frontrunSizeMultiplier
    if !hasSufficientBalance sig.account sig.side requestedSizeUsd then
      .skipInsufficientBalance
    else if requestedSizeUsd = 0 then
      .skipBelowThreshold
    else
      .emit ⟨sig.account, sig.marketId, sig.side, requestedSizeUsd,
             currentGasPrice * cfg.gasPriceMultiplier, sig.memberIds⟩

/-! ## Concrete inputs used in witnesses and counterexamples -/

/-- A valid, already-normalized 40-hex-digit address. -/
def addr0 : Str := strLit "0x1111111111111111111111111111111111111111"

/-- A valid, already-normalized private key (64 `a`s). -/
def key0 : Str := strLit ("0x" ++ String.mk (List.replicate 64 'a'))

/-- A valid RPC URL. -/
def rpc0 : Str := strLit "https://rpc.example.org"

/-- A fully valid baseline process environment. -/
def baseEnv : ProcessEnv :=
  { TARGET_ADDRESSES := [addr0]
    PUBLIC_KEY := some addr0
    PRIVATE_KEY := some key0
    MONGO_URI := none
    RPC_URL := some rpc0
    FETCH_INTERVAL := none
    TRADE_MULTIPLIER := none
    RETRY_LIMIT := none
    TRADE_AGGREGATION_ENABLED := none
    TRADE_AGGREGATION_WINDOW_SECONDS := none
    USDC_CONTRACT_ADDRESS := none
    POLYMARKET_API_KEY := none
    POLYMARKET_API_SECRET := none
    POLYMARKET_API_PASSPHRASE := none
    MIN_TRADE_SIZE_USD := none
    FRONTRUN_SIZE_MULTIPLIER := none
    GAS_PRICE_MULTIPLIER := none }

/-- The `RuntimeEnv` that `loadEnv` produces on `baseEnv`. -/
def baseResult : RuntimeEnv :=
  { targetAddresses := [addr0]
    proxyWallet := addr0
    privateKey := key0
    mongoUri := none
    rpcUrl := rpc0
    fetchIntervalSeconds := some 1
    tradeMultiplier := some 1
    retryLimit := some 3
    aggregationEnabled := false
    aggregationWindowSeconds := some 300
    usdcContractAddress := defaultUsdc
    polymarketApiKey := none
    polymarketApiSecret := none
    polymarketApiPassphrase := none
    minTradeSizeUsd := some 100
    frontrunSizeMultiplier := some (1 / 2)
    gasPriceMultiplier := some (6 / 5) }

/-- `baseEnv` with `MIN_TRADE_SIZE_USD` set to a string whose `Number(·)`
conversion is `NaN` (e.g. `MIN_TRADE_SIZE_USD=abc`). -/
def c2Env : ProcessEnv := { baseEnv with MIN_TRADE_SIZE_USD := some jsNan }

/-- `baseEnv` with a non-numeric `FETCH_INTERVAL`. -/
def c6Env : ProcessEnv := { baseEnv with FETCH_INTERVAL := some jsNan }

/-- `baseEnv` with the boundary value `FRONTRUN_SIZE_MULTIPLIER=0`. -/
def c4Env : ProcessEnv := { baseEnv with FRONTRUN_SIZE_MULTIPLIER := some (some 0) }

/-- `baseEnv` with the out-of-range value `GAS_PRICE_MULTIPLIER=0.5`. -/
def c5Env : ProcessEnv := { baseEnv with GAS_PRICE_MULTIPLIER := some (some (1 / 2)) }

/-- `baseEnv` with `PRIVATE_KEY` missing. -/
def c7Env : ProcessEnv := { baseEnv with PRIVATE_KEY := none }

/-- Client-factory collaborators that always succeed. -/
def clientDeps0 : ClientDeps := ⟨fun _ => .ok (), fun _ => .ok addr0⟩

/-- Client-factory input with an invalid private key. -/
def clientInput0 : CreateClientInput := ⟨rpc0, strLit "bad", none, none, none⟩

/-- The `ValidationError` `normalizePrivateKey` throws on the key `bad`. -/
def privKeyErr0 : ValidationError :=
  ⟨strLit "Invalid private key format. Expected hex format (64 characters, optionally prefixed with 0x).\nGot: bad... (length: 3)",
   strLit "PRIVATE_KEY"⟩

/-- Decision Engine configuration of the spec's worked example. -/
def c3Cfg : DecisionConfig := ⟨100, 1 / 2, 6 / 5⟩

/-- The aggregated signal of the spec's worked example (`netSizeUsd = 500`). -/
def c3Sig : AggregatedSignal :=
  ⟨strLit "0xacc", strLit "mkt1", Side.buy, 500, 0, 0, [strLit "sig1"]⟩

/-- The execution request the worked example expects
(`requestedSizeUsd = 250`, `gasPriceHint = 36`). -/
def c3Req : ExecutionRequest :=
  ⟨strLit "0xacc", strLit "mkt1", Side.buy, 250, 36, [strLit "sig1"]⟩

/-- A balance oracle that always reports sufficient funds. -/
def c3Bal : Str → Side → ℚ → Bool := fun _ _ _ => true

/-! ## Helper lemmas about the string model -/

theorem dropWhile_of_all_not {p : ℕ → Bool} {l : Str}
    (h : ∀ c ∈ l, p c = false) : l.dropWhile p = l := by
  induction l with
  | nil => rfl
  | cons b bs ih =>
    rw [List.dropWhile_cons]
    rw [h b (List.mem_cons_self b bs)]
    simp

theorem jsTrim_of_all_not {l : Str} (h : ∀ c ∈ l, isJsWs c = false) :
    jsTrim l = l := by
  unfold jsTrim
  rw [dropWhile_of_all_not h]
  rw [dropWhile_of_all_not (by intro c hc; exact h c (List.mem_reverse.mp hc))]
  exact List.reverse_reverse l

theorem dropWhile_idem (p : ℕ → Bool) (l : Str) :
    (l.dropWhile p).dropWhile p = l.dropWhile p := by
  induction l with
  | nil => rfl
  | cons b bs ih =>
    rw [List.dropWhile_cons]
    by_cases hb : p b = true
    · rw [if_pos hb]; exact ih
    · rw [if_neg hb, List.dropWhile_cons, if_neg hb]

theorem dropWhile_head_false {p : ℕ → Bool} {l : Str} {a : ℕ} {t : Str}
    (h : l.dropWhile p = a :: t) : p a = false := by
  induction l with
  | nil => simp at h
  | cons b bs ih =>
    rw [List.dropWhile_cons] at h
    by_cases hb : p b = true
    · rw [if_pos hb] at h; exact ih h
    · rw [if_neg hb] at h
      injection h with h1 _
      subst h1
      simpa using hb

theorem trimmed_no_leading {p : ℕ → Bool} {A : Str}
    (hhead : ∀ a t, A = a :: t → p a = false) :
    (A.reverse.dropWhile p).reverse.dropWhile p = (A.reverse.dropWhile p).reverse := by
  cases hb : (A.reverse.dropWhile p).reverse with
  | nil => simp
  | cons a t =>
    have hsplit : A.reverse.takeWhile p ++ A.reverse.dropWhile p = A.reverse :=
      List.takeWhile_append_dropWhile p _
    have hA : A = (A.reverse.dropWhile p).reverse ++ (A.reverse.takeWhile p).reverse := by
      have h2 := congrArg List.reverse hsplit
      rw [List.reverse_append, List.reverse_reverse] at h2
      exact h2.symm
    rw [hb] at hA
    simp only [List.cons_append] at hA
    have ha : p a = false := hhead a _ hA
    rw [List.dropWhile_cons, ha]
    simp

theorem jsTrim_idem (l : Str) : jsTrim (jsTrim l) = jsTrim l := by
  have h1 :
      List.dropWhile isJsWs (((List.dropWhile isJsWs l).reverse.dropWhile isJsWs).reverse)
        = ((List.dropWhile isJsWs l).reverse.dropWhile isJsWs).reverse :=
    trimmed_no_leading (fun a t h => dropWhile_head_false h)
  show ((List.dropWhile isJsWs (jsTrim l)).reverse.dropWhile isJsWs).reverse = jsTrim l
  have h2 : List.dropWhile isJsWs (jsTrim l) = jsTrim l := h1
  rw [h2]
  show ((((List.dropWhile isJsWs l).reverse.dropWhile isJsWs).reverse).reverse.dropWhile
    isJsWs).reverse = jsTrim l
  rw [List.reverse_reverse, dropWhile_idem]
  rfl

theorem hex_not_ws {c : ℕ} (h : isHexDigit c = true) : isJsWs c = false := by
  simp only [isHexDigit, Bool.or_eq_true, Bool.and_eq_true, decide_eq_true_eq] at h
  simp only [isJsWs, Bool.or_eq_false_iff, beq_eq_false_iff_ne, ne_eq]
  omega

theorem strLit_0x : strLit "0x" = [48, 120] := by decide

/-- Any string `normalizePrivateKey` accepts yields `0x` followed by a
64-character hex body. -/
theorem normalizePrivateKey_ok_shape {k r : Str}
    (h : normalizePrivateKey k = .ok r) :
    ∃ c : Str, r = 48 :: 120 :: c ∧ c.length = 64 ∧ c.all isHexDigit = true := by
  unfold normalizePrivateKey at h
  split at h
  · exact absurd h (by simp)
  dsimp only [] at h
  split at h
  · exact absurd h (by simp)
  split at h
  · exact absurd h (by simp)
  split at h
  · exact absurd h (by simp)
  rename_i hvalidNeg
  have hval : isValidPrivateKey (jsTrim k) = true := by
    simpa using hvalidNeg
  unfold isValidPrivateKey at hval
  rw [jsTrim_idem] at hval
  split at hval
  · exact absurd hval (by simp)
  dsimp only [] at hval
  simp only [Except.ok.injEq] at h
  by_cases hpre : listStartsWith (strLit "0x") (jsTrim k) = true
  · rw [if_pos hpre] at h hval
    refine ⟨(jsTrim k).drop 2, ?_, ?_, ?_⟩
    · rw [← h, strLit_0x]; rfl
    · simpa using (Bool.and_eq_true _ _ |>.mp hval).1
    · exact (Bool.and_eq_true _ _ |>.mp hval).2
  · rw [if_neg hpre] at h hval
    refine ⟨jsTrim k, ?_, ?_, ?_⟩
    · rw [← h, strLit_0x]; rfl
    · simpa using (Bool.and_eq_true _ _ |>.mp hval).1
    · exact (Bool.and_eq_true _ _ |>.mp hval).2

/-- A `0x`-prefixed 64-hex-character string is already in normal form:
it validates, and `normalizePrivateKey` returns it unchanged. -/
theorem normalForm_props {c : Str} (hlen : c.length = 64)
    (hhex : c.all isHexDigit = true) :
    isValidPrivateKey (48 :: 120 :: c) = true ∧
      normalizePrivateKey (48 :: 120 :: c) = .ok (48 :: 120 :: c) := by
  have hws : ∀ x ∈ (48 : ℕ) :: 120 :: c, isJsWs x = false := by
    intro x hx
    simp only [List.mem_cons] at hx
    rcases hx with rfl | rfl | hx
    · rfl
    · rfl
    · exact hex_not_ws (List.all_eq_true.mp hhex x hx)
  have htrim : jsTrim (48 :: 120 :: c) = 48 :: 120 :: c := jsTrim_of_all_not hws
  have hstart : listStartsWith (strLit "0x") (48 :: 120 :: c) = true := by
    rw [strLit_0x]
    simp [listStartsWith]
  have hvalid : isValidPrivateKey (48 :: 120 :: c) = true := by
    unfold isValidPrivateKey
    rw [if_neg (by simp)]
    simp only [htrim, hstart, if_pos]
    simp [hlen, hhex]
  refine ⟨hvalid, ?_⟩
  have hsui : listStartsWith (strLit "suiprivkey") (48 :: 120 :: c) = false := by
    rfl
  unfold normalizePrivateKey
  rw [if_neg (by simp)]
  simp only [htrim, hsui, hstart, hvalid]
  simp [strLit_0x]

/-- C8: for every string accepted by `normalizePrivateKey`, the result is
`0x` followed by exactly 64 hex characters, passes `isValidPrivateKey`,
and is a fixed point of `normalizePrivateKey`. -/
theorem normalizePrivateKey_idempotent_normalized (k r : Str)
    (h : normalizePrivateKey k = .ok r) :
    (r.length = 66 ∧ listStartsWith (strLit "0x") r = true ∧
      (r.drop 2).all isHexDigit = true) ∧
    isValidPrivateKey r = true ∧
    normalizePrivateKey r = .ok r := by
  obtain ⟨c, rfl, hlen, hhex⟩ := normalizePrivateKey_ok_shape h
  obtain ⟨hvalid, hfix⟩ := normalForm_props hlen hhex
  refine ⟨⟨?_, ?_, ?_⟩, hvalid, hfix⟩
  · simp [hlen]
  · rw [strLit_0x]; simp [listStartsWith]
  · simpa using hhex

/-- The `0x` + 40-hex-character address shape (the lower-cased form the
spec's address format describes). -/
def matchesAddressFormat : Str → Bool
  | 48 :: 120 :: rest => rest.length == 40 && rest.all isHexDigit
  | _ => false

theorem hex_lower {x : ℕ} (h : isHexDigit x = true) :
    isHexDigit (jsToLower x) = true := by
  unfold jsToLower
  split
  all_goals
    simp only [isHexDigit, Bool.or_eq_true, Bool.and_eq_true, decide_eq_true_eq] at h ⊢
    omega

theorem normalizeAddress_ok {a n : Str} (h : normalizeAddress a = .ok n) :
    n = (jsTrim a).map jsToLower ∧ isValidEthereumAddress (jsTrim a) = true := by
  unfold normalizeAddress at h
  split at h
  · exact absurd h (by simp)
  dsimp only [] at h
  split at h
  · exact absurd h (by simp)
  rename_i hv
  simp only [Except.ok.injEq] at h
  exact ⟨h.symm, by simpa using hv⟩

theorem valid_lower_matches {a : Str}
    (hv : isValidEthereumAddress (jsTrim a) = true) :
    matchesAddressFormat ((jsTrim a).map jsToLower) = true := by
  unfold isValidEthereumAddress at hv
  split at hv
  · exact absurd hv (by simp)
  rw [jsTrim_idem] at hv
  cases htta : jsTrim a with
  | nil => rw [htta] at hv; simp at hv
  | cons c0 t1 =>
    cases t1 with
    | nil => rw [htta] at hv; simp at hv
    | cons c1 rest =>
      rw [htta] at hv
      simp only [Bool.and_eq_true, Bool.or_eq_true, beq_iff_eq] at hv
      obtain ⟨⟨⟨h0, h1⟩, hlen⟩, hhex⟩ := hv
      subst h0
      have hl0 : jsToLower 48 = 48 := by decide
      have hl1 : jsToLower c1 = 120 := by
        rcases h1 with rfl | rfl <;> decide
      simp only [List.map_cons, hl0, hl1, matchesAddressFormat,
        List.length_map, hlen, Bool.and_eq_true, beq_iff_eq, List.all_eq_true]
      refine ⟨by simp, ?_⟩
      intro x hx
      obtain ⟨y, hy, rfl⟩ := List.mem_map.mp hx
      exact hex_lower (List.all_eq_true.mp hhex y hy)

theorem collectAddresses_cons_ok {a n : Str} {rest : List Str} {idx : ℕ}
    (hna : normalizeAddress a = .ok n) :
    collectAddresses (a :: rest) idx =
      (n :: (collectAddresses rest (idx + 1)).1, (collectAddresses rest (idx + 1)).2) := by
  simp only [collectAddresses, hna]

theorem collectAddresses_cons_err {a : Str} {e : ValidationError} {rest : List Str} {idx : ℕ}
    (hna : normalizeAddress a = .error e) :
    collectAddresses (a :: rest) idx =
      ((collectAddresses rest (idx + 1)).1,
        (strLit "Address[" ++ natStr idx ++ strLit "]: " ++ e.message) ::
          (collectAddresses rest (idx + 1)).2) := by
  simp only [collectAddresses, hna]

theorem collectAddresses_no_errors {l : List Str} :
    ∀ idx : ℕ, (collectAddresses l idx).2 = [] →
    List.Forall₂ (fun a n => normalizeAddress a = .ok n) l (collectAddresses l idx).1 := by
  induction l with
  | nil => intro idx _; exact List.Forall₂.nil
  | cons a rest ih =>
    intro idx herr
    cases hna : normalizeAddress a with
    | error e =>
      rw [collectAddresses_cons_err hna] at herr
      simp at herr
    | ok n =>
      rw [collectAddresses_cons_ok hna] at herr ⊢
      exact List.Forall₂.cons hna (ih (idx + 1) herr)

theorem collectAddresses_with_error {l : List Str} :
    ∀ idx : ℕ, (∃ a ∈ l, ∃ e, normalizeAddress a = .error e) →
      (collectAddresses l idx).2 ≠ [] := by
  induction l with
  | nil => intro idx h; simp at h
  | cons a rest ih =>
    intro idx h
    rcases h with ⟨b, hb, e, he⟩
    simp only [List.mem_cons] at hb
    rcases hb with rfl | hb
    · rw [collectAddresses_cons_err he]
      simp
    · cases hna : normalizeAddress a with
      | error e2 =>
        rw [collectAddresses_cons_err hna]
        simp
      | ok n =>
        rw [collectAddresses_cons_ok hna]
        exact ih (idx + 1) ⟨b, hb, e, he⟩

/-- C9: `validateAddresses` is all-or-nothing — the empty list throws, any
invalid entry makes the whole call throw, and on success the result has
the same length and order, with each entry the trimmed lower-cased form of
its input, matching the `0x` + 40-hex-character format. -/
theorem validateAddresses_all_or_nothing :
    (∃ e, validateAddresses ([] : List Str) = .error e ∧
      e.field = strLit "TARGET_ADDRESSES") ∧
    (∀ l : List Str, (∃ a ∈ l, ∃ e, normalizeAddress a = .error e) →
      ∃ e, validateAddresses l = .error e ∧ e.field = strLit "TARGET_ADDRESSES") ∧
    (∀ (l out : List Str), validateAddresses l = .ok out →
      out.length = l.length ∧
      ∀ i (hi : i < l.length) (ho : i < out.length),
        out.get ⟨i, ho⟩ = (jsTrim (l.get ⟨i, hi⟩)).map jsToLower ∧
        matchesAddressFormat (out.get ⟨i, ho⟩) = true) := by
  refine ⟨⟨⟨strLit "At least one target address is required",
      strLit "TARGET_ADDRESSES"⟩, by decide, rfl⟩, ?_, ?_⟩
  · intro l hbad
    have hne : l.isEmpty = false := by
      rcases hbad with ⟨a, ha, _⟩
      cases l
      · simp at ha
      · rfl
    have herr := collectAddresses_with_error 0 hbad
    have herr2 : (!(collectAddresses l 0).2.isEmpty) = true := by
      cases hcl : (collectAddresses l 0).2 with
      | nil => exact absurd hcl herr
      | cons x xs => rfl
    unfold validateAddresses
    rw [hne]
    dsimp only []
    rw [if_neg (by simp), if_pos herr2]
    exact ⟨_, rfl, rfl⟩
  · intro l out h
    unfold validateAddresses at h
    split at h
    · exact absurd h (by simp)
    dsimp only [] at h
    split at h
    · exact absurd h (by simp)
    rename_i herrNeg
    have herr : (collectAddresses l 0).2 = [] := by
      have := herrNeg
      simp only [Bool.not_eq_true', Bool.not_eq_false] at this
      exact List.isEmpty_iff.mp this
    simp only [Except.ok.injEq] at h
    have hfa := collectAddresses_no_errors 0 herr
    rw [List.forall₂_iff_get] at hfa
    obtain ⟨hlen, hget⟩ := hfa
    subst h
    refine ⟨hlen.symm, ?_⟩
    intro i hi ho
    obtain ⟨hn, hvalid⟩ := normalizeAddress_ok (hget i hi ho)
    rw [hn]
    exact ⟨rfl, valid_lower_matches hvalid⟩
theorem normalizePrivateKey_idempotent_normalized_witness :
    ((strLit ("0x" ++ String.mk (List.replicate 64 'a'))).length = 66 ∧
      listStartsWith (strLit "0x") (strLit ("0x" ++ String.mk (List.replicate 64 'a'))) = true ∧
      ((strLit ("0x" ++ String.mk (List.replicate 64 'a'))).drop 2).all isHexDigit = true) ∧
    isValidPrivateKey (strLit ("0x" ++ String.mk (List.replicate 64 'a'))) = true ∧
    normalizePrivateKey (strLit ("0x" ++ String.mk (List.replicate 64 'a'))) =
      .ok (strLit ("0x" ++ String.mk (List.replicate 64 'a'))) :=
  normalizePrivateKey_idempotent_normalized
    (strLit ("0x" ++ String.mk (List.replicate 64 'a')))
    (strLit ("0x" ++ String.mk (List.replicate 64 'a')))
    (by decide)

/-- Witness for C9: the singleton list holding a padded upper-case `0X`
address validates to its trimmed lower-cased form, which matches the
address format. -/
theorem validateAddresses_all_or_nothing_witness :
    ([strLit "0x1111111111111111111111111111111111111111"] : List Str).get ⟨0, by decide⟩ =
      (jsTrim (([strLit " 0X1111111111111111111111111111111111111111 "] : List Str).get
        ⟨0, by decide⟩)).map jsToLower ∧
    matchesAddressFormat
      (([strLit "0x1111111111111111111111111111111111111111"] : List Str).get
        ⟨0, by decide⟩) = true :=
  (validateAddresses_all_or_nothing.2.2
      [strLit " 0X1111111111111111111111111111111111111111 "]
      [strLit "0x1111111111111111111111111111111111111111"]
      (by decide)).2 0 (by decide) (by decide)

/-- C10: a private key rejected by `normalizePrivateKey` makes
`createPolymarketClient` throw that very `ValidationError`, unwrapped and
before any RPC attempt; every other failure surfaces as a plain `Error`
wrapped in the generic client-creation message. -/
theorem createPolymarketClient_validation_propagation :
    (∀ (deps : ClientDeps) (input : CreateClientInput) (e : ValidationError),
      normalizePrivateKey input.privateKey = .error e →
      createPolymarketClient deps input = (.error (.validation e), false)) ∧
    (∀ (deps : ClientDeps) (input : CreateClientInput) (err : ClientError) (att : Bool),
      createPolymarketClient deps input = (.error err, att) →
      (∃ e, err = .validation e ∧ normalizePrivateKey input.privateKey = .error e) ∨
      (∃ m, err = .plain (strLit "Failed to create Polymarket client: " ++ m))) := by
  constructor
  · intro deps input e h
    unfold createPolymarketClient
    rw [h]
  · intro deps input err att h
    unfold createPolymarketClient at h
    cases hn : normalizePrivateKey input.privateKey with
    | error e =>
      rw [hn] at h
      dsimp only [] at h
      simp only [Prod.mk.injEq, Except.error.injEq] at h
      exact Or.inl ⟨e, h.1.symm, rfl⟩
    | ok k =>
      rw [hn] at h
      dsimp only [] at h
      cases hc : deps.connectNetwork input.rpcUrl with
      | error msg =>
        rw [hc] at h
        dsimp only [] at h
        simp only [Prod.mk.injEq, Except.error.injEq] at h
        exact Or.inr ⟨_, h.1.symm⟩
      | ok u =>
        rw [hc] at h
        dsimp only [] at h
        cases hw : deps.makeWallet k with
        | error msg =>
          rw [hw] at h
          dsimp only [] at h
          simp only [Prod.mk.injEq, Except.error.injEq] at h
          exact Or.inr ⟨_, h.1.symm⟩
        | ok w =>
          rw [hw] at h
          dsimp only [] at h
          split at h
          · simp only [Prod.mk.injEq, Except.error.injEq] at h
            exact Or.inr ⟨_, h.1.symm⟩
          · simp at h

/-- Witness for C10: with always-succeeding collaborators and the invalid
key `bad`, the factory returns the propagated `ValidationError` without
attempting the RPC connection. -/
theorem createPolymarketClient_validation_propagation_witness :
    createPolymarketClient clientDeps0 clientInput0 =
      (.error (.validation privKeyErr0), false) :=
  createPolymarketClient_validation_propagation.1 clientDeps0 clientInput0
    privKeyErr0 (by decide)

/-! ## The Merger forwards each id exactly once (C1) -/

theorem hasId_map_preserve (cache : List TradeSignal) (s : TradeSignal) (j : Str) :
    hasId (cache.map fun c =>
      if c.id = s.id then
        { c with confirmationState := confUpgrade c.confirmationState s.confirmationState }
      else c) j = hasId cache j := by
  unfold hasId
  rw [List.any_map]
  congr 1
  funext c
  by_cases hc : c.id = s.id
  · simp only [Function.comp_apply, if_pos hc]
  · simp only [Function.comp_apply, if_neg hc]

theorem runMergerFrom_count (sigs : List TradeSignal) :
    ∀ (st : MergerState) (i : Str),
    (runMergerFrom st sigs).countP (fun s => decide (s.id = i)) =
      if i ∈ sigs.map TradeSignal.id ∧ hasId st.cache i = false then 1 else 0 := by
  induction sigs with
  | nil =>
    intro st i
    simp [runMergerFrom]
  | cons s rest ih =>
    intro st i
    by_cases hseen : hasId st.cache s.id = true
    · have hstep : mergeStep st s = (⟨st.cache.map fun c =>
          if c.id = s.id then
            { c with confirmationState := confUpgrade c.confirmationState s.confirmationState }
          else c⟩, none) := by
        unfold mergeStep
        rw [if_pos hseen]
      have hrun : runMergerFrom st (s :: rest) = runMergerFrom (⟨st.cache.map fun c =>
          if c.id = s.id then
            { c with confirmationState := confUpgrade c.confirmationState s.confirmationState }
          else c⟩ : MergerState) rest := by
        simp only [runMergerFrom]
        rw [hstep]
      rw [hrun, ih]
      rw [show hasId ((⟨st.cache.map fun c =>
          if c.id = s.id then
            { c with confirmationState := confUpgrade c.confirmationState s.confirmationState }
          else c⟩ : MergerState)).cache i = hasId st.cache i from hasId_map_preserve st.cache s i]
      by_cases hi : i = s.id
      · subst hi
        simp [hseen]
      · have hiff : (i ∈ List.map TradeSignal.id rest ∧ hasId st.cache i = false) ↔
            (i ∈ List.map TradeSignal.id (s :: rest) ∧ hasId st.cache i = false) := by
          simp only [List.map_cons, List.mem_cons]
          constructor
          · rintro ⟨hm, hf⟩
            exact ⟨Or.inr hm, hf⟩
          · rintro ⟨hm, hf⟩
            rcases hm with h1 | h1
            · exact absurd h1 hi
            · exact ⟨h1, hf⟩
        rw [if_congr hiff rfl rfl]
    · have hstep : mergeStep st s = (⟨s :: st.cache⟩, some s) := by
        unfold mergeStep
        rw [if_neg hseen]
      have hrun : runMergerFrom st (s :: rest) =
          s :: runMergerFrom (⟨s :: st.cache⟩ : MergerState) rest := by
        simp only [runMergerFrom]
        rw [hstep]
      rw [hrun, List.countP_cons, ih]
      have hcons : hasId ((⟨s :: st.cache⟩ : MergerState)).cache i =
          (decide (s.id = i) || hasId st.cache i) := by
        unfold hasId
        rw [List.any_cons]
      rw [hcons]
      have hfalse : hasId st.cache s.id = false := by
        cases hx : hasId st.cache s.id
        · rfl
        · exact absurd hx hseen
      by_cases hi : i = s.id
      · subst hi
        simp [hfalse]
      · have hsi : decide (s.id = i) = false :=
          decide_eq_false fun hc => hi hc.symm
        rw [hsi]
        rw [if_neg Bool.false_ne_true, Nat.add_zero, Bool.false_or]
        have hiff : (i ∈ List.map TradeSignal.id rest ∧ hasId st.cache i = false) ↔
            (i ∈ List.map TradeSignal.id (s :: rest) ∧ hasId st.cache i = false) := by
          simp only [List.map_cons, List.mem_cons]
          constructor
          · rintro ⟨hm, hf⟩
            exact ⟨Or.inr hm, hf⟩
          · rintro ⟨hm, hf⟩
            rcases hm with h1 | h1
            · exact absurd h1 hi
            · exact ⟨h1, hf⟩
        rw [if_congr hiff rfl rfl]
  
/-- C1: for every stream of TradeSignals from both sources and every
signal id, the Merger forwards exactly one downstream signal with that id
when the id occurs in the stream, and none otherwise. -/
theorem merger_forwards_exactly_once (sigs : List TradeSignal) (i : Str) :
    (mergerForward sigs).countP (fun s => decide (s.id = i)) =
      if i ∈ sigs.map TradeSignal.id then 1 else 0 := by
  have h := runMergerFrom_count sigs ⟨[]⟩ i
  simpa [mergerForward, hasId] using h

/-- C3: every emitted ExecutionRequest carries
`requestedSizeUsd = netSizeUsd × frontrunSizeMultiplier` and
`gasPriceHint = currentGasPrice × gasPriceMultiplier`; in particular the
spec's worked example (net 500, multiplier 0.5, threshold 100, gas 30,
gas multiplier 1.2) emits the request with size 250 and hint 36. -/
theorem decision_engine_sizing :
    (∀ (cfg : DecisionConfig) (inFlight : List (Str × Str × Side))
      (bal : Str → Side → ℚ → Bool) (gas : ℚ) (sig : AggregatedSignal)
      (req : ExecutionRequest),
      decideSignal cfg inFlight bal gas sig = .emit req →
      req.requestedSizeUsd = sig.netSizeUsd * cfg.frontrunSizeMultiplier ∧
      req.gasPriceHint = gas * cfg.gasPriceMultiplier) ∧
    decideSignal c3Cfg [] c3Bal 30 c3Sig = .emit c3Req := by
  constructor
  · intro cfg inFlight bal gas sig req h
    unfold decideSignal at h
    split at h
    · exact absurd h (by simp)
    split at h
    · exact absurd h (by simp)
    dsimp only [] at h
    split at h
    · exact absurd h (by simp)
    split at h
    · exact absurd h (by simp)
    simp only [Decision.emit.injEq] at h
    rw [← h]
    exact ⟨rfl, rfl⟩
  · unfold decideSignal
    rw [if_neg (by norm_num [c3Sig, c3Cfg])]
    rw [if_neg (by simp [c3Sig])]
    dsimp only []
    rw [if_neg (by simp [c3Bal])]
    rw [if_neg (by norm_num [c3Sig, c3Cfg])]
    simp only [c3Sig, c3Cfg, c3Req, Decision.emit.injEq, ExecutionRequest.mk.injEq]
    norm_num

/-- Witness for C3: the general sizing law applied to the worked example. -/
theorem decision_engine_sizing_witness :
    c3Req.requestedSizeUsd = c3Sig.netSizeUsd * c3Cfg.frontrunSizeMultiplier ∧
    c3Req.gasPriceHint = 30 * c3Cfg.gasPriceMultiplier :=
  decision_engine_sizing.1 c3Cfg [] c3Bal 30 c3Sig c3Req decision_engine_sizing.2

/-! ## `loadEnv` stage lemmas -/

theorem loadEnv_stages {p : ProcessEnv} {l : List Str} {s w s2 k s3 : Str}
    (hva : validateAddresses p.TARGET_ADDRESSES = .ok l)
    (hpk : required (strLit "PUBLIC_KEY") p.PUBLIC_KEY = .ok s)
    (hna : normalizeAddress s = .ok w)
    (hsk : required (strLit "PRIVATE_KEY") p.PRIVATE_KEY = .ok s2)
    (hnk : normalizePrivateKey s2 = .ok k)
    (hrpc : required (strLit "RPC_URL") p.RPC_URL = .ok s3) :
    loadEnv p =
      if (!isValidRpcUrl (jsTrim s3)) = true then
        .error ⟨strLit "Invalid RPC_URL format. Expected HTTP or HTTPS URL.",
                strLit "RPC_URL"⟩
      else if fetchIntervalBad p = true then
        .error ⟨strLit "Invalid FETCH_INTERVAL. Must be a positive number (seconds).",
                strLit "FETCH_INTERVAL"⟩
      else if frontrunBad p = true then
        .error ⟨strLit "Invalid FRONTRUN_SIZE_MULTIPLIER. Must be between 0.0 and 1.0.",
                strLit "FRONTRUN_SIZE_MULTIPLIER"⟩
      else if gasBad p = true then
        .error ⟨strLit "Invalid GAS_PRICE_MULTIPLIER. Must be >= 1.0.",
                strLit "GAS_PRICE_MULTIPLIER"⟩
      else .ok (mkRuntimeEnv p l w k (jsTrim s3)) := by
  unfold loadEnv
  rw [hva]
  dsimp only []
  rw [hpk]
  dsimp only []
  rw [hna]
  dsimp only []
  rw [hsk]
  dsimp only []
  rw [hnk]
  dsimp only []
  rw [hrpc]

theorem loadEnv_ok_inv {p : ProcessEnv} {r : RuntimeEnv} (h : loadEnv p = .ok r) :
    preNumericOk p ∧
    fetchIntervalBad p = false ∧ frontrunBad p = false ∧ gasBad p = false ∧
    r.fetchIntervalSeconds = fetchIntervalVal p ∧
    r.frontrunSizeMultiplier = frontrunVal p ∧
    r.gasPriceMultiplier = gasVal p ∧
    r.minTradeSizeUsd = p.MIN_TRADE_SIZE_USD.getD (some 100) ∧
    r.retryLimit = p.RETRY_LIMIT.getD (some 3) := by
  unfold loadEnv at h
  cases hva : validateAddresses p.TARGET_ADDRESSES with
  | error e => rw [hva] at h; simp at h
  | ok l =>
    rw [hva] at h
    dsimp only [] at h
    cases hpk : required (strLit "PUBLIC_KEY") p.PUBLIC_KEY with
    | error e => rw [hpk] at h; simp at h
    | ok s =>
      rw [hpk] at h
      dsimp only [] at h
      cases hna : normalizeAddress s with
      | error e => rw [hna] at h; simp at h
      | ok w =>
        rw [hna] at h
        dsimp only [] at h
        cases hsk : required (strLit "PRIVATE_KEY") p.PRIVATE_KEY with
        | error e => rw [hsk] at h; simp at h
        | ok s2 =>
          rw [hsk] at h
          dsimp only [] at h
          cases hnk : normalizePrivateKey s2 with
          | error e => rw [hnk] at h; simp at h
          | ok k =>
            rw [hnk] at h
            dsimp only [] at h
            cases hrpc : required (strLit "RPC_URL") p.RPC_URL with
            | error e => rw [hrpc] at h; simp at h
            | ok s3 =>
              rw [hrpc] at h
              dsimp only [] at h
              split at h
              · simp at h
              rename_i hurl
              split at h
              · simp at h
              rename_i hfetch
              split at h
              · simp at h
              rename_i hfront
              split at h
              · simp at h
              rename_i hgas
              simp only [Except.ok.injEq] at h
              subst h
              refine ⟨⟨⟨l, hva⟩, ⟨s, w, hpk, hna⟩, ⟨s2, k, hsk, hnk⟩,
                ⟨s3, hrpc, ?_⟩⟩, ?_, ?_, ?_, rfl, rfl, rfl, rfl, rfl⟩
              · simpa using hurl
              · simpa using hfetch
              · simpa using hfront
              · simpa using hgas

theorem loadEnv_error_fetch {p : ProcessEnv} (hpre : preNumericOk p)
    (hbad : fetchIntervalBad p = true) :
    ∃ e, loadEnv p = .error e ∧ e.field = strLit "FETCH_INTERVAL" := by
  obtain ⟨⟨l, hva⟩, ⟨s, w, hpk, hna⟩, ⟨s2, k, hsk, hnk⟩, ⟨s3, hrpc, hurl⟩⟩ := hpre
  rw [loadEnv_stages hva hpk hna hsk hnk hrpc]
  rw [if_neg (by simp [hurl]), if_pos hbad]
  exact ⟨_, rfl, rfl⟩

theorem loadEnv_error_frontrun {p : ProcessEnv} (hpre : preNumericOk p)
    (hfetch : fetchIntervalBad p = false) (hbad : frontrunBad p = true) :
    ∃ e, loadEnv p = .error e ∧ e.field = strLit "FRONTRUN_SIZE_MULTIPLIER" := by
  obtain ⟨⟨l, hva⟩, ⟨s, w, hpk, hna⟩, ⟨s2, k, hsk, hnk⟩, ⟨s3, hrpc, hurl⟩⟩ := hpre
  rw [loadEnv_stages hva hpk hna hsk hnk hrpc]
  rw [if_neg (by simp [hurl]), if_neg (by simp [hfetch]), if_pos hbad]
  exact ⟨_, rfl, rfl⟩

theorem loadEnv_error_gas {p : ProcessEnv} (hpre : preNumericOk p)
    (hfetch : fetchIntervalBad p = false) (hfront : frontrunBad p = false)
    (hbad : gasBad p = true) :
    ∃ e, loadEnv p = .error e ∧ e.field = strLit "GAS_PRICE_MULTIPLIER" := by
  obtain ⟨⟨l, hva⟩, ⟨s, w, hpk, hna⟩, ⟨s2, k, hsk, hnk⟩, ⟨s3, hrpc, hurl⟩⟩ := hpre
  rw [loadEnv_stages hva hpk hna hsk hnk hrpc]
  rw [if_neg (by simp [hurl]), if_neg (by simp [hfetch]),
    if_neg (by simp [hfront]), if_pos hbad]
  exact ⟨_, rfl, rfl⟩

theorem loadEnv_ok_of {p : ProcessEnv} (hpre : preNumericOk p)
    (h1 : fetchIntervalBad p = false) (h2 : frontrunBad p = false)
    (h3 : gasBad p = false) :
    ∃ r, loadEnv p = .ok r ∧
      r.fetchIntervalSeconds = fetchIntervalVal p ∧
      r.frontrunSizeMultiplier = frontrunVal p ∧
      r.gasPriceMultiplier = gasVal p ∧
      r.minTradeSizeUsd = p.MIN_TRADE_SIZE_USD.getD (some 100) ∧
      r.retryLimit = p.RETRY_LIMIT.getD (some 3) := by
  obtain ⟨⟨l, hva⟩, ⟨s, w, hpk, hna⟩, ⟨s2, k, hsk, hnk⟩, ⟨s3, hrpc, hurl⟩⟩ := hpre
  rw [loadEnv_stages hva hpk hna hsk hnk hrpc]
  rw [if_neg (by simp [hurl]), if_neg (by simp [h1]), if_neg (by simp [h2]),
    if_neg (by simp [h3])]
  exact ⟨_, rfl, rfl, rfl, rfl, rfl, rfl⟩

theorem jsNum_floor_of_not_bad {v : JsNum} {c : ℚ}
    (h : (jsIsNaN v || jsLtB v c) = false) : ∃ q, v = some q ∧ c ≤ q := by
  cases v with
  | none => simp [jsIsNaN] at h
  | some q =>
    refine ⟨q, rfl, ?_⟩
    simp only [jsIsNaN, Option.isNone_some, jsLtB, Bool.false_or,
      decide_eq_false_iff_not] at h
    exact le_of_not_lt h

theorem jsNum_unit_of_not_bad {v : JsNum}
    (h : (jsIsNaN v || jsLtB v 0 || jsGtB v 1) = false) :
    ∃ q, v = some q ∧ 0 ≤ q ∧ q ≤ 1 := by
  cases v with
  | none => simp [jsIsNaN] at h
  | some q =>
    have h2 := (Bool.or_eq_false_iff.mp h).2
    have h1 := (Bool.or_eq_false_iff.mp (Bool.or_eq_false_iff.mp h).1).2
    refine ⟨q, rfl, ?_, ?_⟩
    · simp only [jsLtB, decide_eq_false_iff_not] at h1
      exact le_of_not_lt h1
    · simp only [jsGtB, decide_eq_false_iff_not] at h2
      exact le_of_not_lt h2

/-- `loadEnv` on the fully valid baseline environment returns `baseResult`. -/
theorem loadEnv_baseEnv : loadEnv baseEnv = .ok baseResult := by
  rw [loadEnv_stages
    (by decide : validateAddresses baseEnv.TARGET_ADDRESSES = .ok [addr0])
    (by decide : required (strLit "PUBLIC_KEY") baseEnv.PUBLIC_KEY = .ok addr0)
    (by decide : normalizeAddress addr0 = .ok addr0)
    (by decide : required (strLit "PRIVATE_KEY") baseEnv.PRIVATE_KEY = .ok key0)
    (by decide : normalizePrivateKey key0 = .ok key0)
    (by decide : required (strLit "RPC_URL") baseEnv.RPC_URL = .ok rpc0)]
  rw [if_neg (by decide)]
  rw [if_neg (by simp [fetchIntervalBad, fetchIntervalVal, baseEnv, jsIsNaN, jsLtB]; norm_num)]
  rw [if_neg (by simp [frontrunBad, frontrunVal, baseEnv, jsIsNaN, jsLtB, jsGtB]; norm_num)]
  rw [if_neg (by simp [gasBad, gasVal, baseEnv, jsIsNaN, jsLtB]; norm_num)]
  rw [show jsTrim rpc0 = rpc0 from by decide]
  rfl

/-- C6: `loadEnv` enforces the poll-interval floor — a `FETCH_INTERVAL`
whose numeric interpretation is `NaN` or below 0.1 is never accepted, and
(when the earlier validation stages pass) is rejected with a
`ValidationError` for `FETCH_INTERVAL`; every returned `RuntimeEnv` has
`fetchIntervalSeconds ≥ 0.1`. -/
theorem loadEnv_fetch_interval_floor :
    (∀ p : ProcessEnv, fetchIntervalBad p = true →
      (∀ r, loadEnv p ≠ .ok r) ∧
      (preNumericOk p →
        ∃ e, loadEnv p = .error e ∧ e.field = strLit "FETCH_INTERVAL")) ∧
    (∀ (p : ProcessEnv) (r : RuntimeEnv), loadEnv p = .ok r →
      ∃ q, r.fetchIntervalSeconds = some q ∧ 1 / 10 ≤ q) := by
  constructor
  · intro p hbad
    constructor
    · intro r hok
      obtain ⟨_, h1, _⟩ := loadEnv_ok_inv hok
      rw [hbad] at h1
      exact Bool.noConfusion h1
    · intro hpre
      exact loadEnv_error_fetch hpre hbad
  · intro p r hok
    obtain ⟨_, h1, _, _, hfs, _⟩ := loadEnv_ok_inv hok
    rw [hfs]
    exact jsNum_floor_of_not_bad h1

/-- Witness for C6: `FETCH_INTERVAL=abc` (numeric interpretation `NaN`) on
an otherwise valid environment is rejected for field `FETCH_INTERVAL`. -/
theorem loadEnv_fetch_interval_floor_witness :
    ∃ e, loadEnv c6Env = .error e ∧ e.field = strLit "FETCH_INTERVAL" :=
  (loadEnv_fetch_interval_floor.1 c6Env rfl).2
    ⟨⟨[addr0], by decide⟩, ⟨addr0, addr0, by decide, by decide⟩,
     ⟨key0, key0, by decide, by decide⟩, ⟨rpc0, by decide, by decide⟩⟩

/-- C4: `loadEnv` accepts `FRONTRUN_SIZE_MULTIPLIER` exactly when its
numeric interpretation is a non-`NaN` number in [0, 1] (so the boundary
value 0 is accepted), returns that value in `frontrunSizeMultiplier`, and
otherwise rejects with a `ValidationError` for
`FRONTRUN_SIZE_MULTIPLIER`. -/
theorem loadEnv_frontrun_multiplier_spec :
    (∀ (p : ProcessEnv) (r : RuntimeEnv), loadEnv p = .ok r →
      r.frontrunSizeMultiplier = frontrunVal p ∧
      ∃ q, frontrunVal p = some q ∧ 0 ≤ q ∧ q ≤ 1) ∧
    (∀ p : ProcessEnv, frontrunBad p = true →
      (∀ r, loadEnv p ≠ .ok r) ∧
      (preNumericOk p → fetchIntervalBad p = false →
        ∃ e, loadEnv p = .error e ∧ e.field = strLit "FRONTRUN_SIZE_MULTIPLIER")) ∧
    (∀ p : ProcessEnv, preNumericOk p → fetchIntervalBad p = false →
      frontrunBad p = false → gasBad p = false →
      ∃ r, loadEnv p = .ok r ∧ r.frontrunSizeMultiplier = frontrunVal p) := by
  refine ⟨?_, ?_, ?_⟩
  · intro p r hok
    obtain ⟨_, _, h2, _, _, hfm, _⟩ := loadEnv_ok_inv hok
    exact ⟨hfm, jsNum_unit_of_not_bad h2⟩
  · intro p hbad
    constructor
    · intro r hok
      obtain ⟨_, _, h2, _⟩ := loadEnv_ok_inv hok
      rw [hbad] at h2
      exact Bool.noConfusion h2
    · intro hpre hfetch
      exact loadEnv_error_frontrun hpre hfetch hbad
  · intro p hpre h1 h2 h3
    obtain ⟨r, hok, _, hfm, _⟩ := loadEnv_ok_of hpre h1 h2 h3
    exact ⟨r, hok, hfm⟩

/-- Witness for C4: the boundary value `FRONTRUN_SIZE_MULTIPLIER=0` is
accepted, and the returned multiplier is 0. -/
theorem loadEnv_frontrun_multiplier_spec_witness :
    (∃ r, loadEnv c4Env = .ok r ∧ r.frontrunSizeMultiplier = frontrunVal c4Env) ∧
    frontrunVal c4Env = some 0 :=
  ⟨loadEnv_frontrun_multiplier_spec.2.2 c4Env
    ⟨⟨[addr0], by decide⟩, ⟨addr0, addr0, by decide, by decide⟩,
     ⟨key0, key0, by decide, by decide⟩, ⟨rpc0, by decide, by decide⟩⟩
    (by simp [fetchIntervalBad, fetchIntervalVal, c4Env, baseEnv, jsIsNaN, jsLtB]; norm_num)
    (by simp [frontrunBad, frontrunVal, c4Env, baseEnv, jsIsNaN, jsLtB, jsGtB])
    (by simp [gasBad, gasVal, c4Env, baseEnv, jsIsNaN, jsLtB]; norm_num),
   rfl⟩

/-- C5: `loadEnv` accepts `GAS_PRICE_MULTIPLIER` exactly when its numeric
interpretation is a non-`NaN` number ≥ 1.0, returns that value in
`gasPriceMultiplier`, and otherwise rejects with a `ValidationError` for
`GAS_PRICE_MULTIPLIER`. -/
theorem loadEnv_gas_multiplier_spec :
    (∀ (p : ProcessEnv) (r : RuntimeEnv), loadEnv p = .ok r →
      r.gasPriceMultiplier = gasVal p ∧
      ∃ q, gasVal p = some q ∧ 1 ≤ q) ∧
    (∀ p : ProcessEnv, gasBad p = true →
      (∀ r, loadEnv p ≠ .ok r) ∧
      (preNumericOk p → fetchIntervalBad p = false → frontrunBad p = false →
        ∃ e, loadEnv p = .error e ∧ e.field = strLit "GAS_PRICE_MULTIPLIER")) ∧
    (∀ p : ProcessEnv, preNumericOk p → fetchIntervalBad p = false →
      frontrunBad p = false → gasBad p = false →
      ∃ r, loadEnv p = .ok r ∧ r.gasPriceMultiplier = gasVal p) := by
  refine ⟨?_, ?_, ?_⟩
  · intro p r hok
    obtain ⟨_, _, _, h3, _, _, hgm, _⟩ := loadEnv_ok_inv hok
    exact ⟨hgm, jsNum_floor_of_not_bad h3⟩
  · intro p hbad
    constructor
    · intro r hok
      obtain ⟨_, _, _, h3, _⟩ := loadEnv_ok_inv hok
      rw [hbad] at h3
      exact Bool.noConfusion h3
    · intro hpre hfetch hfront
      exact loadEnv_error_gas hpre hfetch hfront hbad
  · intro p hpre h1 h2 h3
    obtain ⟨r, hok, _, _, hgm, _⟩ := loadEnv_ok_of hpre h1 h2 h3
    exact ⟨r, hok, hgm⟩

/-- Witness for C5: `GAS_PRICE_MULTIPLIER=0.5` on an otherwise valid
environment is rejected for field `GAS_PRICE_MULTIPLIER`. -/
theorem loadEnv_gas_multiplier_spec_witness :
    ∃ e, loadEnv c5Env = .error e ∧ e.field = strLit "GAS_PRICE_MULTIPLIER" :=
  (loadEnv_gas_multiplier_spec.2.1 c5Env
    (by simp [gasBad, gasVal, c5Env, baseEnv, jsIsNaN, jsLtB]; norm_num)).2
    ⟨⟨[addr0], by decide⟩, ⟨addr0, addr0, by decide, by decide⟩,
     ⟨key0, key0, by decide, by decide⟩, ⟨rpc0, by decide, by decide⟩⟩
    (by simp [fetchIntervalBad, fetchIntervalVal, c5Env, baseEnv, jsIsNaN, jsLtB]; norm_num)
    (by simp [frontrunBad, frontrunVal, c5Env, baseEnv, jsIsNaN, jsLtB, jsGtB]; norm_num)

/-- C7: configuration errors are fatal — whenever any validation stage of
`loadEnv` fails (missing variable, invalid address, invalid private key,
invalid RPC URL, or an out-of-range numeric value), `loadEnv` never
returns a `RuntimeEnv`; the error result models the fatal `process.exit`. -/
theorem loadEnv_config_errors_fatal :
    ∀ p : ProcessEnv,
      ((∃ e, validateAddresses p.TARGET_ADDRESSES = .error e) ∨
       (∃ e, required (strLit "PUBLIC_KEY") p.PUBLIC_KEY = .error e) ∨
       (∃ s e, required (strLit "PUBLIC_KEY") p.PUBLIC_KEY = .ok s ∧
         normalizeAddress s = .error e) ∨
       (∃ e, required (strLit "PRIVATE_KEY") p.PRIVATE_KEY = .error e) ∨
       (∃ s e, required (strLit "PRIVATE_KEY") p.PRIVATE_KEY = .ok s ∧
         normalizePrivateKey s = .error e) ∨
       (∃ e, required (strLit "RPC_URL") p.RPC_URL = .error e) ∨
       (∃ s, required (strLit "RPC_URL") p.RPC_URL = .ok s ∧
         isValidRpcUrl (jsTrim s) = false) ∨
       fetchIntervalBad p = true ∨ frontrunBad p = true ∨ gasBad p = true) →
      ∀ r, loadEnv p ≠ .ok r := by
  intro p hbad r hok
  obtain ⟨hpre, h1, h2, h3, _⟩ := loadEnv_ok_inv hok
  obtain ⟨⟨l, hva⟩, ⟨s, w, hpk, hna⟩, ⟨s2, k, hsk, hnk⟩, ⟨s3, hrpc, hurl⟩⟩ := hpre
  rcases hbad with ⟨e, he⟩ | ⟨e, he⟩ | ⟨s', e, hs', he⟩ | ⟨e, he⟩ |
    ⟨s', e, hs', he⟩ | ⟨e, he⟩ | ⟨s', hs', he⟩ | hb | hb | hb
  · rw [he] at hva; exact Except.noConfusion hva
  · rw [he] at hpk; exact Except.noConfusion hpk
  · rw [hpk] at hs'
    injection hs' with hs'
    subst hs'
    rw [he] at hna; exact Except.noConfusion hna
  · rw [he] at hsk; exact Except.noConfusion hsk
  · rw [hsk] at hs'
    injection hs' with hs'
    subst hs'
    rw [he] at hnk; exact Except.noConfusion hnk
  · rw [he] at hrpc; exact Except.noConfusion hrpc
  · rw [hrpc] at hs'
    injection hs' with hs'
    subst hs'
    rw [he] at hurl; exact Bool.noConfusion hurl
  · rw [hb] at h1; exact Bool.noConfusion h1
  · rw [hb] at h2; exact Bool.noConfusion h2
  · rw [hb] at h3; exact Bool.noConfusion h3

/-- Witness for C7: an environment with `PRIVATE_KEY` missing never
produces a `RuntimeEnv`. -/
theorem loadEnv_config_errors_fatal_witness :
    loadEnv c7Env ≠ .ok baseResult :=
  loadEnv_config_errors_fatal c7Env
    (Or.inr (Or.inr (Or.inr (Or.inl
      ⟨⟨strLit "Missing required environment variable: PRIVATE_KEY\nPlease set the variable in your .env file.",
        strLit "PRIVATE_KEY"⟩, by decide⟩))))
    baseResult

/-- C2 counterexample: with `MIN_TRADE_SIZE_USD` set to a string whose
numeric interpretation is `NaN` (all other variables valid), `loadEnv`
still returns a `RuntimeEnv`, whose `minTradeSizeUsd` is `NaN` — the
field is not validated, refuting the claim that a malformed value for any
listed field is rejected. -/
theorem loadEnv_minTradeSize_nan_counterexample :
    (loadEnv c2Env).toOption.map RuntimeEnv.minTradeSizeUsd = some jsNan ∧
    jsIsNaN jsNan = true := by
  refine ⟨?_, rfl⟩
  have hpre : preNumericOk c2Env :=
    ⟨⟨[addr0], by decide⟩, ⟨addr0, addr0, by decide, by decide⟩,
     ⟨key0, key0, by decide, by decide⟩, ⟨rpc0, by decide, by decide⟩⟩
  obtain ⟨r, hok, _, _, _, hmin, _⟩ := loadEnv_ok_of hpre
    (by simp [fetchIntervalBad, fetchIntervalVal, c2Env, baseEnv, jsIsNaN, jsLtB]; norm_num)
    (by simp [frontrunBad, frontrunVal, c2Env, baseEnv, jsIsNaN, jsLtB, jsGtB]; norm_num)
    (by simp [gasBad, gasVal, c2Env, baseEnv, jsIsNaN, jsLtB]; norm_num)
  rw [hok]
  simp [Except.toOption, hmin, c2Env, baseEnv, jsNan]

/-- C2 (amended): every `RuntimeEnv` that `loadEnv` returns has a
validated poll interval (≥ 0.1, non-`NaN`), frontrun multiplier (in
[0, 1], non-`NaN`) and gas multiplier (≥ 1.0, non-`NaN`); the minimum
trade size and retry limit, however, are parsed with `Number(·)` and
passed through unvalidated (a `NaN` is returned rather than rejected). -/
theorem loadEnv_validated_numeric_surface :
    ∀ (p : ProcessEnv) (r : RuntimeEnv), loadEnv p = .ok r →
      (∃ q, r.fetchIntervalSeconds = some q ∧ 1 / 10 ≤ q) ∧
      (∃ q, r.frontrunSizeMultiplier = some q ∧ 0 ≤ q ∧ q ≤ 1) ∧
      (∃ q, r.gasPriceMultiplier = some q ∧ 1 ≤ q) ∧
      r.minTradeSizeUsd = p.MIN_TRADE_SIZE_USD.getD (some 100) ∧
      r.retryLimit = p.RETRY_LIMIT.getD (some 3) := by
  intro p r hok
  obtain ⟨_, h1, h2, h3, hfs, hfm, hgm, hmin, hretry⟩ := loadEnv_ok_inv hok
  refine ⟨?_, ?_, ?_, hmin, hretry⟩
  · rw [hfs]; exact jsNum_floor_of_not_bad h1
  · rw [hfm]; exact jsNum_unit_of_not_bad h2
  · rw [hgm]; exact jsNum_floor_of_not_bad h3

/-- Witness for the amended C2, at the baseline environment. -/
theorem loadEnv_validated_numeric_surface_witness :
    (∃ q, baseResult.fetchIntervalSeconds = some q ∧ 1 / 10 ≤ q) ∧
    (∃ q, baseResult.frontrunSizeMultiplier = some q ∧ 0 ≤ q ∧ q ≤ 1) ∧
    (∃ q, baseResult.gasPriceMultiplier = some q ∧ 1 ≤ q) ∧
    baseResult.minTradeSizeUsd = baseEnv.MIN_TRADE_SIZE_USD.getD (some 100) ∧
    baseResult.retryLimit = baseEnv.RETRY_LIMIT.getD (some 3) :=
  loadEnv_validated_numeric_surface baseEnv baseResult loadEnv_baseEnv
